import Mathlib

/-!
Verification of the CreditZen client-side encryption core.

This development shallowly embeds the cryptographic and session-lifecycle
subsystem of the CreditZen PWA:

* `src/services/cryptoUtils.ts` — Base64 codec, PBKDF2 key handling,
  AES-GCM encrypt/decrypt of the JSON user-data document;
* `src/services/authService.ts` — session persistence, expiry, biometric
  gating, restore/logout lifecycle;
* `src/services/storageService.ts` — offline-first blob load/save,
  backup import, card/settings round-trips.

Browser built-ins that the source calls (window.btoa/atob, WebCrypto
AES-GCM and JWK export/import, JSON.stringify/parse, localStorage) are not
part of the repository; they are modelled explicitly below, each with a
doc comment stating the modelling choice.  Byte buffers are `List Nat`
with every element `< 256`.
-/

namespace CreditZen

/-! ## Base64 codec (`bufferToBase64` / `base64ToBuffer`, cryptoUtils.ts)

The source converts an `ArrayBuffer` to a binary string (one char per
byte, `String.fromCharCode`) and calls `window.btoa`; decoding calls
`window.atob` and reads the char codes back.  `btoa`/`atob` are modelled
here directly on the byte list: standard Base64 with `=` padding, with
`atob` failing (`none`, i.e. the thrown `InvalidCharacterError`) on
non-alphabet characters or a malformed group structure. -/

/-- Code point of the standard Base64 alphabet character for a sextet. -/
def sextetCode (n : Nat) : Nat :=
  if n < 26 then 65 + n
  else if n < 52 then 97 + (n - 26)
  else if n < 62 then 48 + (n - 52)
  else if n = 62 then 43
  else 47

/-- Standard Base64 alphabet character for a sextet value. -/
def sx (n : Nat) : Char := Char.ofNat (sextetCode n)

/-- Inverse alphabet lookup: `none` on a non-Base64 character. -/
def unsx (c : Char) : Option Nat :=
  let n := c.toNat
  if 65 ≤ n ∧ n ≤ 90 then some (n - 65)
  else if 97 ≤ n ∧ n ≤ 122 then some (n - 97 + 26)
  else if 48 ≤ n ∧ n ≤ 57 then some (n - 48 + 52)
  else if n = 43 then some 62
  else if n = 47 then some 63
  else none

/-- Model of `window.btoa` composed with the byte→binary-string loop of
`bufferToBase64`: encode bytes three at a time into four Base64
characters, padding the final quantum with `=`. -/
def b64encode : List Nat → List Char
  | [] => []
  | [b0] => [sx (b0 / 4), sx (b0 % 4 * 16), '=', '=']
  | [b0, b1] => [sx (b0 / 4), sx (b0 % 4 * 16 + b1 / 16), sx (b1 % 16 * 4), '=']
  | b0 :: b1 :: b2 :: rest =>
      sx (b0 / 4) :: sx (b0 % 4 * 16 + b1 / 16) :: sx (b1 % 16 * 4 + b2 / 64) ::
        sx (b2 % 64) :: b64encode rest

/-- Model of `window.atob` composed with the `charCodeAt` loop of
`base64ToBuffer`: decode four characters at a time, accepting `=`
padding only at the very end; `none` models the thrown
`InvalidCharacterError`. -/
def b64decode : List Char → Option (List Nat)
  | [] => some []
  | c0 :: c1 :: c2 :: c3 :: rest =>
      match unsx c0, unsx c1 with
      | some s0, some s1 =>
          if c2 = '=' ∧ c3 = '=' ∧ rest = [] then
            some [s0 * 4 + s1 / 16]
          else
            match unsx c2 with
            | some s2 =>
                if c3 = '=' ∧ rest = [] then
                  some [s0 * 4 + s1 / 16, s1 % 16 * 16 + s2 / 4]
                else
                  match unsx c3, b64decode rest with
                  | some s3, some bs =>
                      some ((s0 * 4 + s1 / 16) :: (s1 % 16 * 16 + s2 / 4) ::
                        (s2 % 4 * 64 + s3) :: bs)
                  | _, _ => none
            | none => none
      | _, _ => none
  | _ => none

/-- `bufferToBase64` (cryptoUtils.ts): byte buffer to Base64 text. -/
def bufferToBase64 (b : List Nat) : String := String.mk (b64encode b)

/-- `base64ToBuffer` (cryptoUtils.ts): Base64 text back to a byte buffer;
`none` models the uncaught `atob` exception on malformed input. -/
def base64ToBuffer (s : String) : Option (List Nat) := b64decode s.data

theorem unsx_sx : ∀ n, n < 64 → unsx (sx n) = some n := by decide

theorem sx_ne_pad : ∀ n, n < 64 → sx n ≠ '=' := by decide

theorem b64decode_encode : ∀ b : List Nat, (∀ x ∈ b, x < 256) →
    b64decode (b64encode b) = some b
  | [], _ => rfl
  | [b0], h => by
      have hb0 : b0 < 256 := h b0 (by simp)
      have h0 := unsx_sx (b0 / 4) (by omega)
      have h1 := unsx_sx (b0 % 4 * 16) (by omega)
      simp only [b64encode, b64decode, h0, h1]
      simp
      omega
  | [b0, b1], h => by
      have hb0 : b0 < 256 := h b0 (by simp)
      have hb1 : b1 < 256 := h b1 (by simp)
      have h0 := unsx_sx (b0 / 4) (by omega)
      have h1 := unsx_sx (b0 % 4 * 16 + b1 / 16) (by omega)
      have h2 := unsx_sx (b1 % 16 * 4) (by omega)
      have hne2 := sx_ne_pad (b1 % 16 * 4) (by omega)
      simp only [b64encode, b64decode, h0, h1, h2]
      simp [hne2]
      omega
  | b0 :: b1 :: b2 :: rest, h => by
      have hb0 : b0 < 256 := h b0 (by simp)
      have hb1 : b1 < 256 := h b1 (by simp)
      have hb2 : b2 < 256 := h b2 (by simp)
      have ih := b64decode_encode rest (fun x hx => h x (by simp [hx]))
      have h0 := unsx_sx (b0 / 4) (by omega)
      have h1 := unsx_sx (b0 % 4 * 16 + b1 / 16) (by omega)
      have h2 := unsx_sx (b1 % 16 * 4 + b2 / 64) (by omega)
      have h3 := unsx_sx (b2 % 64) (by omega)
      have hne2 := sx_ne_pad (b1 % 16 * 4 + b2 / 64) (by omega)
      have hne3 := sx_ne_pad (b2 % 64) (by omega)
      simp only [b64encode, b64decode, h0, h1, h2, h3, ih]
      simp [hne2, hne3]
      omega

/-- Helper form of the Base64 round-trip, for use inside other proofs. -/
theorem base64ToBuffer_bufferToBase64 (b : List Nat) (h : ∀ x ∈ b, x < 256) :
    base64ToBuffer (bufferToBase64 b) = some b :=
  b64decode_encode b h

/-- C3: for every byte sequence `b` (each entry a byte, i.e. `< 256`),
including the empty and single-byte sequences,
`base64ToBuffer (bufferToBase64 b) = b`: the Base64 codec of
cryptoUtils.ts round-trips losslessly. -/
theorem base64_roundtrip (b : List Nat) (h : ∀ x ∈ b, x < 256) :
    base64ToBuffer (bufferToBase64 b) = some b :=
  base64ToBuffer_bufferToBase64 b h

theorem base64_roundtrip_witness :
    ((∀ x ∈ [0, 1, 77, 255, 128], x < 256) ∧
      base64ToBuffer (bufferToBase64 [0, 1, 77, 255, 128]) = some [0, 1, 77, 255, 128]) ∧
    base64ToBuffer (bufferToBase64 []) = some [] ∧
    base64ToBuffer (bufferToBase64 [7]) = some [7] :=
  ⟨⟨by decide, base64_roundtrip [0, 1, 77, 255, 128] (by decide)⟩,
    base64_roundtrip [] (by decide), base64_roundtrip [7] (by decide)⟩

/-! ## Byte-serialization toolkit

Modelled from the spec: `JSON.stringify`/`JSON.parse` composed with
`TextEncoder`/`TextDecoder` (browser built-ins, external to the
repository) turn a JSON-serializable document into UTF-8 bytes and back,
and round-trip losslessly on JSON values.  They are modelled as an
injective, prefix-free byte serialization together with its executable
partial inverse (`none` models a thrown `SyntaxError`); every emitted
byte is `< 256`.  The combinators below are the building blocks. -/

/-- Unary encoding of a natural (n ones then a zero); prefix-free. -/
def encNat (n : Nat) : List Nat := List.replicate n 1 ++ [0]

/-- Decoder for `encNat`, returning the value and the unread remainder. -/
def decNat : List Nat → Option (Nat × List Nat)
  | [] => none
  | x :: r =>
      if x = 0 then some (0, r)
      else if x = 1 then (decNat r).map (fun p => (p.1 + 1, p.2))
      else none

theorem decNat_encNat (n : Nat) (r : List Nat) : decNat (encNat n ++ r) = some (n, r) := by
  induction n with
  | zero => rfl
  | succ k ih =>
      have he : encNat (k + 1) ++ r = 1 :: (encNat k ++ r) := by
        simp [encNat, List.replicate_succ]
      rw [he]
      simp [decNat, ih]

theorem encNat_lt (n : Nat) : ∀ x ∈ encNat n, x < 256 := by
  intro x hx
  simp [encNat, List.mem_replicate] at hx
  omega

/-- Sign-then-magnitude integer encoding. -/
def encInt (i : Int) : List Nat := (if i < 0 then 1 else 0) :: encNat i.natAbs

/-- Decoder for `encInt`. -/
def decInt : List Nat → Option (Int × List Nat)
  | [] => none
  | x :: r =>
      if x = 0 then (decNat r).map (fun p => ((p.1 : Int), p.2))
      else if x = 1 then (decNat r).map (fun p => (-(p.1 : Int), p.2))
      else none

theorem decInt_encInt (i : Int) (r : List Nat) : decInt (encInt i ++ r) = some (i, r) := by
  by_cases hi : i < 0
  · have hn : ((i.natAbs : Nat) : Int) = -i := by omega
    simp [encInt, decInt, hi, decNat_encNat, hn]
  · have hn : ((i.natAbs : Nat) : Int) = i := by omega
    simp [encInt, decInt, hi, decNat_encNat, hn]

theorem encInt_lt (i : Int) : ∀ x ∈ encInt i, x < 256 := by
  intro x hx
  simp only [encInt] at hx
  rcases List.mem_cons.1 hx with h | h
  · split at h <;> omega
  · exact encNat_lt _ x h

/-- A character is encoded as the unary code of its code point. -/
def encChar (c : Char) : List Nat := encNat c.toNat

/-- Decoder for `encChar`. -/
def decChar (r : List Nat) : Option (Char × List Nat) :=
  (decNat r).map (fun p => (Char.ofNat p.1, p.2))

theorem char_ofNat_toNat (c : Char) : Char.ofNat c.toNat = c := by
  rcases c with ⟨v, h⟩
  simp [Char.ofNat, Char.toNat, h]
  rfl

theorem decChar_encChar (c : Char) (r : List Nat) : decChar (encChar c ++ r) = some (c, r) := by
  simp [decChar, encChar, decNat_encNat, char_ofNat_toNat]

/-- Cons-marker list encoding: `1` before each element, `0` at the end. -/
def encListBy (f : α → List Nat) : List α → List Nat
  | [] => [0]
  | x :: xs => 1 :: (f x ++ encListBy f xs)

/-- Fuelled decoder for `encListBy`; fuel bounds the number of elements. -/
def decListBy (g : List Nat → Option (α × List Nat)) : Nat → List Nat → Option (List α × List Nat)
  | 0, _ => none
  | _ + 1, [] => none
  | fuel + 1, x :: r =>
      if x = 0 then some ([], r)
      else if x = 1 then
        match g r with
        | some (a, r1) =>
            match decListBy g fuel r1 with
            | some (as, r2) => some (a :: as, r2)
            | none => none
        | none => none
      else none

theorem decListBy_encListBy (f : α → List Nat) (g : List Nat → Option (α × List Nat))
    (hg : ∀ a r, g (f a ++ r) = some (a, r)) :
    ∀ (xs : List α) (r : List Nat) (fuel : Nat), xs.length < fuel →
      decListBy g fuel (encListBy f xs ++ r) = some (xs, r) := by
  intro xs
  induction xs with
  | nil =>
      intro r fuel hf
      match fuel, hf with
      | fuel + 1, _ => simp [encListBy, decListBy]
  | cons x xs ih =>
      intro r fuel hf
      match fuel, hf with
      | fuel + 1, hf =>
          have hx : xs.length < fuel := by simp at hf; omega
          simp [encListBy, decListBy, List.append_assoc, hg, ih _ fuel hx]

theorem encListBy_length_le (f : α → List Nat) :
    ∀ xs : List α, xs.length ≤ (encListBy f xs).length := by
  intro xs
  induction xs with
  | nil => simp [encListBy]
  | cons x xs ih => simp [encListBy]; omega

theorem encListBy_lt (f : α → List Nat) (hf : ∀ a, ∀ x ∈ f a, x < 256) :
    ∀ xs : List α, ∀ x ∈ encListBy f xs, x < 256 := by
  intro xs
  induction xs with
  | nil => simp [encListBy]
  | cons a xs ih =>
      intro x hx
      simp only [encListBy, List.mem_cons, List.mem_append] at hx
      rcases hx with h | h | h
      · omega
      · exact hf a x h
      · exact ih x h

/-- A string is the list of its characters (the `String.data` field). -/
def encStr (s : String) : List Nat := encListBy encChar s.data

/-- Decoder for `encStr`; fuel is derived from the remaining input. -/
def decStr (r : List Nat) : Option (String × List Nat) :=
  (decListBy decChar (r.length + 1) r).map (fun p => (String.mk p.1, p.2))

theorem decStr_encStr (s : String) (r : List Nat) : decStr (encStr s ++ r) = some (s, r) := by
  have hlen : s.data.length < (encStr s ++ r).length + 1 := by
    have := encListBy_length_le encChar s.data
    simp only [encStr, List.length_append]
    omega
  have hd := decListBy_encListBy encChar decChar decChar_encChar s.data r
    ((encStr s ++ r).length + 1) hlen
  simp only [decStr, encStr] at hd ⊢
  rw [hd]
  simp

theorem encStr_lt (s : String) : ∀ x ∈ encStr s, x < 256 :=
  encListBy_lt encChar (fun a => encNat_lt a.toNat) s.data

/-! ## JSON documents

`encryptData(data: any, ...)` serializes an arbitrary JSON-serializable
value with `JSON.stringify`.  The value domain is modelled by the mutual
inductive below (numbers as integers; object fields as an ordered
association list, as `JSON.stringify` preserves insertion order). -/

mutual
/-- A JSON-serializable value. -/
inductive Json where
  | null : Json
  | bool (b : Bool) : Json
  | num (n : Int) : Json
  | str (s : String) : Json
  | arr (a : JsonArr) : Json
  | obj (o : JsonObj) : Json
/-- A JSON array. -/
inductive JsonArr where
  | nil : JsonArr
  | cons (hd : Json) (tl : JsonArr) : JsonArr
/-- A JSON object: an ordered list of string-keyed fields. -/
inductive JsonObj where
  | nil : JsonObj
  | cons (k : String) (v : Json) (tl : JsonObj) : JsonObj
end

mutual
/-- Serializer for documents (tag byte then payload; prefix-free). -/
def encJson : Json → List Nat
  | .null => [2]
  | .bool b => [3, if b then 1 else 0]
  | .num i => 4 :: encInt i
  | .str s => 5 :: encStr s
  | .arr a => 6 :: encArr a
  | .obj o => 7 :: encObj o
/-- Serializer for arrays (cons-marker encoding). -/
def encArr : JsonArr → List Nat
  | .nil => [0]
  | .cons j tl => 1 :: (encJson j ++ encArr tl)
/-- Serializer for objects (cons-marker encoding of key/value pairs). -/
def encObj : JsonObj → List Nat
  | .nil => [0]
  | .cons k v tl => 1 :: (encStr k ++ (encJson v ++ encObj tl))
end

mutual
/-- Fuelled decoder for `encJson`. -/
def decJson : Nat → List Nat → Option (Json × List Nat)
  | 0, _ => none
  | _ + 1, [] => none
  | fuel + 1, t :: r =>
      if t = 2 then some (.null, r)
      else if t = 3 then
        match r with
        | 0 :: r1 => some (.bool false, r1)
        | 1 :: r1 => some (.bool true, r1)
        | _ => none
      else if t = 4 then (decInt r).map (fun p => (.num p.1, p.2))
      else if t = 5 then (decStr r).map (fun p => (.str p.1, p.2))
      else if t = 6 then (decArr fuel r).map (fun p => (.arr p.1, p.2))
      else if t = 7 then (decObj fuel r).map (fun p => (.obj p.1, p.2))
      else none
/-- Fuelled decoder for `encArr`. -/
def decArr : Nat → List Nat → Option (JsonArr × List Nat)
  | 0, _ => none
  | _ + 1, [] => none
  | fuel + 1, x :: r =>
      if x = 0 then some (.nil, r)
      else if x = 1 then
        match decJson fuel r with
        | some (j, r1) =>
            match decArr fuel r1 with
            | some (tl, r2) => some (.cons j tl, r2)
            | none => none
        | none => none
      else none
/-- Fuelled decoder for `encObj`. -/
def decObj : Nat → List Nat → Option (JsonObj × List Nat)
  | 0, _ => none
  | _ + 1, [] => none
  | fuel + 1, x :: r =>
      if x = 0 then some (.nil, r)
      else if x = 1 then
        match decStr r with
        | some (k, r1) =>
            match decJson fuel r1 with
            | some (v, r2) =>
                match decObj fuel r2 with
                | some (tl, r3) => some (.cons k v tl, r3)
                | none => none
            | none => none
        | none => none
      else none
end

mutual
/-- Node count of a document, bounding the decoding fuel. -/
def sizeJ : Json → Nat
  | .null => 1
  | .bool _ => 1
  | .num _ => 1
  | .str _ => 1
  | .arr a => 1 + sizeA a
  | .obj o => 1 + sizeO o
/-- Node count of an array. -/
def sizeA : JsonArr → Nat
  | .nil => 1
  | .cons j tl => 1 + sizeJ j + sizeA tl
/-- Node count of an object. -/
def sizeO : JsonObj → Nat
  | .nil => 1
  | .cons _ v tl => 1 + sizeJ v + sizeO tl
end

mutual
theorem decJson_encJson : ∀ (j : Json) (r : List Nat) (fuel : Nat), sizeJ j ≤ fuel →
    decJson fuel (encJson j ++ r) = some (j, r)
  | j, _, 0, h => by cases j <;> simp [sizeJ] at h
  | .null, r, fuel + 1, _ => by simp [encJson, decJson]
  | .bool b, r, fuel + 1, _ => by cases b <;> simp [encJson, decJson]
  | .num i, r, fuel + 1, _ => by simp [encJson, decJson, decInt_encInt]
  | .str s, r, fuel + 1, _ => by simp [encJson, decJson, decStr_encStr]
  | .arr a, r, fuel + 1, h => by
      have ha : sizeA a ≤ fuel := by simp [sizeJ] at h; omega
      simp [encJson, decJson, decArr_encArr a r fuel ha]
  | .obj o, r, fuel + 1, h => by
      have ho : sizeO o ≤ fuel := by simp [sizeJ] at h; omega
      simp [encJson, decJson, decObj_encObj o r fuel ho]
theorem decArr_encArr : ∀ (a : JsonArr) (r : List Nat) (fuel : Nat), sizeA a ≤ fuel →
    decArr fuel (encArr a ++ r) = some (a, r)
  | a, _, 0, h => by cases a <;> simp [sizeA] at h
  | .nil, r, fuel + 1, _ => by simp [encArr, decArr]
  | .cons j tl, r, fuel + 1, h => by
      have h1 : sizeJ j ≤ fuel := by simp [sizeA] at h; omega
      have h2 : sizeA tl ≤ fuel := by simp [sizeA] at h; omega
      simp [encArr, decArr, List.append_assoc, decJson_encJson j _ fuel h1,
        decArr_encArr tl r fuel h2]
theorem decObj_encObj : ∀ (o : JsonObj) (r : List Nat) (fuel : Nat), sizeO o ≤ fuel →
    decObj fuel (encObj o ++ r) = some (o, r)
  | o, _, 0, h => by cases o <;> simp [sizeO] at h
  | .nil, r, fuel + 1, _ => by simp [encObj, decObj]
  | .cons k v tl, r, fuel + 1, h => by
      have h1 : sizeJ v ≤ fuel := by simp [sizeO] at h; omega
      have h2 : sizeO tl ≤ fuel := by simp [sizeO] at h; omega
      simp [encObj, decObj, List.append_assoc, decStr_encStr,
        decJson_encJson v _ fuel h1, decObj_encObj tl r fuel h2]
end

mutual
theorem sizeJ_le_length : ∀ j : Json, sizeJ j ≤ (encJson j).length
  | .null => by simp [sizeJ, encJson]
  | .bool b => by simp [sizeJ, encJson]
  | .num i => by simp [sizeJ, encJson]
  | .str s => by simp [sizeJ, encJson]
  | .arr a => by
      have := sizeA_le_length a
      simp [sizeJ, encJson]; omega
  | .obj o => by
      have := sizeO_le_length o
      simp [sizeJ, encJson]; omega
theorem sizeA_le_length : ∀ a : JsonArr, sizeA a ≤ (encArr a).length
  | .nil => by simp [sizeA, encArr]
  | .cons j tl => by
      have h1 := sizeJ_le_length j
      have h2 := sizeA_le_length tl
      simp [sizeA, encArr]; omega
theorem sizeO_le_length : ∀ o : JsonObj, sizeO o ≤ (encObj o).length
  | .nil => by simp [sizeO, encObj]
  | .cons k v tl => by
      have h1 := sizeJ_le_length v
      have h2 := sizeO_le_length tl
      simp [sizeO, encObj]; omega
end

mutual
theorem encJson_lt : ∀ j : Json, ∀ x ∈ encJson j, x < 256
  | .null => by simp [encJson]
  | .bool b => by cases b <;> simp [encJson]
  | .num i => by
      intro x hx
      rcases List.mem_cons.1 hx with h | h
      · omega
      · exact encInt_lt i x h
  | .str s => by
      intro x hx
      rcases List.mem_cons.1 hx with h | h
      · omega
      · exact encStr_lt s x h
  | .arr a => by
      intro x hx
      rcases List.mem_cons.1 hx with h | h
      · omega
      · exact encArr_lt a x h
  | .obj o => by
      intro x hx
      rcases List.mem_cons.1 hx with h | h
      · omega
      · exact encObj_lt o x h
theorem encArr_lt : ∀ a : JsonArr, ∀ x ∈ encArr a, x < 256
  | .nil => by simp [encArr]
  | .cons j tl => by
      intro x hx
      rcases List.mem_cons.1 hx with h | h
      · omega
      · rcases List.mem_append.1 h with h | h
        · exact encJson_lt j x h
        · exact encArr_lt tl x h
theorem encObj_lt : ∀ o : JsonObj, ∀ x ∈ encObj o, x < 256
  | .nil => by simp [encObj]
  | .cons k v tl => by
      intro x hx
      rcases List.mem_cons.1 hx with h | h
      · omega
      · rcases List.mem_append.1 h with h | h
        · exact encStr_lt k x h
        · rcases List.mem_append.1 h with h | h
          · exact encJson_lt v x h
          · exact encObj_lt tl x h
end

/-- Model of `JSON.stringify` followed by `TextEncoder.encode`: the
serialized bytes of a document (see the toolkit header comment). -/
def encodeDoc : Json → List Nat := encJson

/-- Model of `TextDecoder.decode` followed by `JSON.parse`: partial
inverse of `encodeDoc`; the whole input must be consumed, `none` models
a thrown `SyntaxError`. -/
def decodeDoc (pt : List Nat) : Option Json :=
  match decJson (pt.length + 1) pt with
  | some (j, []) => some j
  | _ => none

theorem decodeDoc_encodeDoc (j : Json) : decodeDoc (encodeDoc j) = some j := by
  have hs : sizeJ j ≤ (encJson j).length + 1 := by
    have := sizeJ_le_length j
    omega
  have h := decJson_encJson j [] ((encJson j).length + 1) hs
  simp only [List.append_nil] at h
  simp [decodeDoc, encodeDoc, h]

/-! ## Encryption engine (`encryptData` / `decryptData`, cryptoUtils.ts) -/

/-- `EncryptedPayload` (types.ts): Base64 IV and Base64 ciphertext. -/
structure EncryptedPayload where
  iv : String
  ciphertext : String
deriving DecidableEq

/-- Errors observable from `decryptData`: `decodeError` is the uncaught
`InvalidCharacterError` thrown by `atob` on malformed Base64 (lines
89-90 run before the `try` block); `decryptionError` carries the message
of the `Error` thrown from the `catch` block. -/
inductive CryptoError where
  | decodeError : CryptoError
  | decryptionError (msg : String) : CryptoError
deriving DecidableEq

/-- Modelled from the spec: `window.crypto.subtle.encrypt` with AES-GCM
(a browser primitive, not repository code).  AES-GCM is modelled as an
ideal authenticated cipher: the ciphertext determines IV, key and
plaintext, and decryption succeeds exactly when the presented key and IV
match those used at encryption — the GCM authentication-tag check, which
with the real primitive fails on a mismatch with overwhelming
probability.  Keys are 32 bytes (AES-256), IVs 12 bytes. -/
def gcmEncrypt (key iv pt : List Nat) : List Nat := iv ++ key ++ pt

/-- Modelled from the spec: `window.crypto.subtle.decrypt` with AES-GCM;
`none` is the authentication failure (`OperationError`) thrown inside
the `try` block of `decryptData`. -/
def gcmDecrypt (key iv ct : List Nat) : Option (List Nat) :=
  if ct.take 12 = iv ∧ (ct.drop 12).take 32 = key then some ((ct.drop 12).drop 32)
  else none

/-- `encryptData` (cryptoUtils.ts): serialize the document to bytes,
draw a fresh random 12-byte IV (`crypto.getRandomValues`, modelled by
the explicit `iv` argument), AES-GCM-encrypt, and Base64-encode both
outputs. -/
def encryptData (data : Json) (key : List Nat) (iv : List Nat) : EncryptedPayload :=
  { iv := bufferToBase64 iv,
    ciphertext := bufferToBase64 (gcmEncrypt key iv (encodeDoc data)) }

/-- `decryptData` (cryptoUtils.ts): Base64-decode IV and ciphertext
(outside the `try` block — failures there escape as `decodeError`),
AES-GCM-decrypt and JSON-parse inside the `try` block, mapping any
failure there to the single `DecryptionError` message. -/
def decryptData (ivBase64 : String) (ciphertextBase64 : String) (key : List Nat) :
    Except CryptoError Json :=
  match base64ToBuffer ivBase64 with
  | none => .error .decodeError
  | some iv =>
      match base64ToBuffer ciphertextBase64 with
      | none => .error .decodeError
      | some ciphertext =>
          match gcmDecrypt key iv ciphertext with
          | none => .error (.decryptionError "Decryption failed. Invalid password or corrupted data.")
          | some ptBytes =>
              match decodeDoc ptBytes with
              | none => .error (.decryptionError "Decryption failed. Invalid password or corrupted data.")
              | some obj => .ok obj

theorem gcmEncrypt_lt (key iv pt : List Nat) (hk : ∀ x ∈ key, x < 256)
    (hi : ∀ x ∈ iv, x < 256) (hp : ∀ x ∈ pt, x < 256) :
    ∀ x ∈ gcmEncrypt key iv pt, x < 256 := by
  intro x hx
  simp only [gcmEncrypt, List.append_assoc, List.mem_append] at hx
  rcases hx with h | h | h
  · exact hi x h
  · exact hk x h
  · exact hp x h

theorem gcmDecrypt_gcmEncrypt (key iv pt : List Nat) (hkl : key.length = 32)
    (hil : iv.length = 12) : gcmDecrypt key iv (gcmEncrypt key iv pt) = some pt := by
  have ht : (iv ++ (key ++ pt)).take 12 = iv := List.take_left' hil
  have hd : (iv ++ (key ++ pt)).drop 12 = key ++ pt := List.drop_left' hil
  simp only [gcmEncrypt, gcmDecrypt, List.append_assoc, ht, hd,
    List.take_left' hkl, List.drop_left' hkl]
  simp

/-- C1: for every JSON-serializable document `o`, AES-256 key `k`
(32 bytes) and fresh 12-byte IV, decrypting the payload produced by
`encryptData o k iv` with the same key returns exactly `o`. -/
theorem decryptData_encryptData (o : Json) (key iv : List Nat)
    (hkl : key.length = 32) (hkb : ∀ x ∈ key, x < 256)
    (hil : iv.length = 12) (hib : ∀ x ∈ iv, x < 256) :
    decryptData (encryptData o key iv).iv (encryptData o key iv).ciphertext key =
      Except.ok o := by
  have hct : ∀ x ∈ gcmEncrypt key iv (encodeDoc o), x < 256 :=
    gcmEncrypt_lt key iv (encodeDoc o) hkb hib (encJson_lt o)
  simp only [encryptData, decryptData, base64ToBuffer_bufferToBase64 iv hib,
    base64ToBuffer_bufferToBase64 _ hct, gcmDecrypt_gcmEncrypt key iv _ hkl hil,
    decodeDoc_encodeDoc o]

theorem decryptData_encryptData_witness :
    ((List.replicate 32 7).length = 32 ∧ (∀ x ∈ List.replicate 32 7, x < 256) ∧
      (List.replicate 12 9).length = 12 ∧ (∀ x ∈ List.replicate 12 9, x < 256)) ∧
    decryptData (encryptData (Json.num 42) (List.replicate 32 7) (List.replicate 12 9)).iv
      (encryptData (Json.num 42) (List.replicate 32 7) (List.replicate 12 9)).ciphertext
      (List.replicate 32 7) = Except.ok (Json.num 42) :=
  ⟨⟨by decide, by decide, by decide, by decide⟩,
    decryptData_encryptData (Json.num 42) (List.replicate 32 7) (List.replicate 12 9)
      (by decide) (by decide) (by decide) (by decide)⟩

/-- C2: decrypting `encryptData o k1 iv` with a different key `k2 ≠ k1`
fails with the `DecryptionError` whose message is
"Decryption failed. Invalid password or corrupted data." — it neither
returns a parsed-but-corrupted document nor escapes as any other error
(in the ideal-cipher model the GCM tag check always rejects a wrong
key; the real primitive rejects with overwhelming probability). -/
theorem decryptData_wrong_key (o : Json) (k1 k2 iv : List Nat) (hne : k1 ≠ k2)
    (hk1 : k1.length = 32) (hk1b : ∀ x ∈ k1, x < 256)
    (hk2 : k2.length = 32)
    (hil : iv.length = 12) (hib : ∀ x ∈ iv, x < 256) :
    decryptData (encryptData o k1 iv).iv (encryptData o k1 iv).ciphertext k2 =
      Except.error
        (CryptoError.decryptionError "Decryption failed. Invalid password or corrupted data.") := by
  have hct : ∀ x ∈ gcmEncrypt k1 iv (encodeDoc o), x < 256 :=
    gcmEncrypt_lt k1 iv (encodeDoc o) hk1b hib (encJson_lt o)
  have hd : (iv ++ (k1 ++ encodeDoc o)).drop 12 = k1 ++ encodeDoc o := List.drop_left' hil
  have hfail : gcmDecrypt k2 iv (gcmEncrypt k1 iv (encodeDoc o)) = none := by
    simp only [gcmEncrypt, gcmDecrypt, List.append_assoc, hd, List.take_left' hk1]
    rw [if_neg]
    intro hc
    exact hne hc.2
  simp only [encryptData, decryptData, base64ToBuffer_bufferToBase64 iv hib,
    base64ToBuffer_bufferToBase64 _ hct, hfail]

theorem decryptData_wrong_key_witness :
    (List.replicate 32 7 ≠ List.replicate 32 8 ∧
      (List.replicate 32 7).length = 32 ∧ (List.replicate 32 8).length = 32 ∧
      (List.replicate 12 9).length = 12) ∧
    decryptData (encryptData Json.null (List.replicate 32 7) (List.replicate 12 9)).iv
      (encryptData Json.null (List.replicate 32 7) (List.replicate 12 9)).ciphertext
      (List.replicate 32 8) =
      Except.error
        (CryptoError.decryptionError "Decryption failed. Invalid password or corrupted data.") :=
  ⟨⟨by decide, by decide, by decide, by decide⟩,
    decryptData_wrong_key Json.null (List.replicate 32 7) (List.replicate 32 8)
      (List.replicate 12 9) (by decide) (by decide) (by decide) (by decide)
      (by decide) (by decide)⟩

/-! ## Session controller (authService.ts)

State is split between the four localStorage slots the service uses and
the two in-memory module variables.  `localStorage` reads/writes are
modelled as an infallible record (the source wraps `persistSession`'s
writes in a try/catch only to log); time (`Date.now()`) is an explicit
`now : Nat` argument; the decimal `toString`/`parseInt` round-trip of
the stored expiry is modelled away by storing the number itself. -/

/-- `UserProfile` (types.ts). -/
structure UserProfile where
  id : String
  username : String
  salt : String
deriving DecidableEq

/-- The four localStorage slots of authService.ts:
`creditzen_session_key`, `creditzen_session_user`,
`creditzen_session_expiry`, `creditzen_biometric_enabled`
(the last holds the text 'true' or is absent, modelled as a Bool). -/
structure SessionStore where
  sessionKey : Option String
  sessionUser : Option String
  sessionExpiry : Option Nat
  biometricEnabled : Bool
deriving DecidableEq

/-- In-memory module state: `currentSessionKey` (an AES key, raw bytes)
and `currentUser`. -/
structure SessionMem where
  currentSessionKey : Option (List Nat)
  currentUser : Option UserProfile
deriving DecidableEq

/-- `SESSION_TIMEOUT_MS` (authService.ts): 20 minutes. -/
def SESSION_TIMEOUT_MS : Nat := 20 * 60 * 1000

/-- `BIOMETRIC_TIMEOUT_MS` (authService.ts): 7 days. -/
def BIOMETRIC_TIMEOUT_MS : Nat := 7 * 24 * 60 * 60 * 1000

/-- `isBiometricEnabled` (authService.ts): the preference flag is set. -/
def isBiometricEnabled (st : SessionStore) : Bool := st.biometricEnabled

/-- Modelled from the spec: `exportKeyToJWK` + `JSON.stringify`
(WebCrypto JWK export, a browser primitive): an injective text
serialization of the raw key bytes, here their Base64 (the JWK `k`
field). -/
def exportKeyToJWK (key : List Nat) : String := bufferToBase64 key

/-- Modelled from the spec: `JSON.parse` + `importKeyFromJWK` (WebCrypto
JWK import): partial inverse of `exportKeyToJWK`; `none` models the
exception thrown on malformed stored key material. -/
def importKeyFromJWK (s : String) : Option (List Nat) := base64ToBuffer s

/-- Modelled from the spec: `JSON.stringify` of a `UserProfile` (browser
primitive): an injective text serialization of the three fields. -/
def serializeUser (u : UserProfile) : String :=
  bufferToBase64 (encStr u.id ++ (encStr u.username ++ encStr u.salt))

/-- Modelled from the spec: `JSON.parse` of a stored `UserProfile`;
`none` models the thrown `SyntaxError` on malformed text. -/
def parseUser (s : String) : Option UserProfile :=
  match base64ToBuffer s with
  | none => none
  | some bs =>
      match decStr bs with
      | none => none
      | some (id, r1) =>
          match decStr r1 with
          | none => none
          | some (username, r2) =>
              match decStr r2 with
              | none => none
              | some (salt, r3) =>
                  if r3 = [] then some ⟨id, username, salt⟩ else none

theorem parseUser_serializeUser (u : UserProfile) : parseUser (serializeUser u) = some u := by
  have hb : ∀ x ∈ encStr u.id ++ (encStr u.username ++ encStr u.salt), x < 256 := by
    intro x hx
    rcases List.mem_append.1 hx with h | h
    · exact encStr_lt _ x h
    · rcases List.mem_append.1 h with h | h
      · exact encStr_lt _ x h
      · exact encStr_lt _ x h
  have h1 := decStr_encStr u.id (encStr u.username ++ encStr u.salt)
  have h2 := decStr_encStr u.username (encStr u.salt)
  have h3 := decStr_encStr u.salt []
  simp only [List.append_nil] at h3
  simp [parseUser, serializeUser, base64ToBuffer_bufferToBase64 _ hb, h1, h2, h3]

/-- `persistSession` (authService.ts): export the key to JWK text and
write key, user and `now + timeout` to the three session slots, where
the timeout is 7 days when the biometric preference is enabled and 20
minutes otherwise. -/
def persistSession (st : SessionStore) (now : Nat) (key : List Nat) (user : UserProfile) :
    SessionStore :=
  let timeout := if isBiometricEnabled st then BIOMETRIC_TIMEOUT_MS else SESSION_TIMEOUT_MS
  { st with
    sessionKey := some (exportKeyToJWK key),
    sessionUser := some (serializeUser user),
    sessionExpiry := some (now + timeout) }

/-- `clearSession` (authService.ts): remove the three session slots; the
biometric preference flag is deliberately kept. -/
def clearSession (st : SessionStore) : SessionStore :=
  { st with sessionKey := none, sessionUser := none, sessionExpiry := none }

/-- `restoreSession` (authService.ts, the biometric-aware version):
check the stored expiry (clearing and failing when past); hold at the
biometric gate when enabled and not skipped; fail without clearing when
a slot is absent; deserialize key then user (any thrown failure lands in
the catch block: clear and fail, the in-memory variables untouched); on
success set the in-memory key/user, refresh the expiry and succeed.
Returns (store, memory, restored?). -/
def restoreSession (st : SessionStore) (mem : SessionMem) (now : Nat)
    (skipBiometricCheck : Bool) : SessionStore × SessionMem × Bool :=
  match st.sessionExpiry with
  | none => (st, mem, false)
  | some expiry =>
      if expiry < now then (clearSession st, mem, false)
      else if isBiometricEnabled st && !skipBiometricCheck then (st, mem, false)
      else
        match st.sessionKey, st.sessionUser with
        | some jwkStr, some userStr =>
            match importKeyFromJWK jwkStr with
            | none => (clearSession st, mem, false)
            | some key =>
                match parseUser userStr with
                | none => (clearSession st, mem, false)
                | some user =>
                    let timeout :=
                      if isBiometricEnabled st then BIOMETRIC_TIMEOUT_MS else SESSION_TIMEOUT_MS
                    ({ st with sessionExpiry := some (now + timeout) },
                      { currentSessionKey := some key, currentUser := some user }, true)
        | _, _ => (st, mem, false)

/-- `loginUser` (authService.ts), success path after the external remote
authentication, salt lookup and PBKDF2 derivation: set the in-memory key
and user, then persist the session. -/
def loginUser (st : SessionStore) (now : Nat) (key : List Nat) (user : UserProfile) :
    SessionStore × SessionMem :=
  (persistSession st now key user,
    { currentSessionKey := some key, currentUser := some user })

/-- `logoutUser` (authService.ts): clear the in-memory key/user and the
persisted session slots (remote sign-out is external). -/
def logoutUser (st : SessionStore) : SessionStore × SessionMem :=
  (clearSession st, { currentSessionKey := none, currentUser := none })

/-- `enableBiometrics` (authService.ts), success path after the platform
credential prompt (external): set the preference flag, then re-persist
the live session under the new (7-day) expiry policy. -/
def enableBiometrics (st : SessionStore) (mem : SessionMem) (now : Nat) : SessionStore :=
  let st1 := { st with biometricEnabled := true }
  match mem.currentSessionKey, mem.currentUser with
  | some key, some user => persistSession st1 now key user
  | _, _ => st1

/-- `disableBiometrics` (authService.ts): remove the preference flag,
then re-persist the live session under the short expiry. -/
def disableBiometrics (st : SessionStore) (mem : SessionMem) (now : Nat) : SessionStore :=
  let st1 := { st with biometricEnabled := false }
  match mem.currentSessionKey, mem.currentUser with
  | some key, some user => persistSession st1 now key user
  | _, _ => st1

/-- C4: restoring a persisted session whose stored expiry is strictly in
the past returns false, removes all three persisted session slots, and
(called on a cold start, no key in memory) leaves no key in memory. -/
theorem restoreSession_expired (st : SessionStore) (mem : SessionMem) (now : Nat)
    (skip : Bool) (e : Nat) (hst : st.sessionExpiry = some e) (hlt : e < now)
    (hmem : mem.currentSessionKey = none) :
    restoreSession st mem now skip = (clearSession st, mem, false) ∧
    (restoreSession st mem now skip).1.sessionKey = none ∧
    (restoreSession st mem now skip).1.sessionUser = none ∧
    (restoreSession st mem now skip).1.sessionExpiry = none ∧
    (restoreSession st mem now skip).2.1.currentSessionKey = none := by
  simp [restoreSession, hst, hlt, clearSession, hmem]

theorem restoreSession_expired_witness :
    ((⟨some "k", some "u", some 10, false⟩ : SessionStore).sessionExpiry = some 10 ∧
      10 < 99 ∧ (⟨none, none⟩ : SessionMem).currentSessionKey = none) ∧
    restoreSession ⟨some "k", some "u", some 10, false⟩ ⟨none, none⟩ 99 false =
      (clearSession ⟨some "k", some "u", some 10, false⟩, ⟨none, none⟩, false) :=
  ⟨⟨rfl, by decide, rfl⟩,
    (restoreSession_expired ⟨some "k", some "u", some 10, false⟩ ⟨none, none⟩ 99 false 10
      rfl (by decide) rfl).1⟩

/-- C5 counterexample: a persisted record whose expiry check passes but
whose key slot is absent makes `restoreSession` fail (return false)
while leaving the persisted expiry and user slots in place — the claim
that every post-expiry-check failure clears the entire persisted record
is false on the code. -/
theorem restoreSession_missing_slot_not_cleared :
    (restoreSession ⟨none, some "u", some 10, false⟩ ⟨none, none⟩ 5 true).2.2 = false ∧
    (restoreSession ⟨none, some "u", some 10, false⟩ ⟨none, none⟩ 5 true).1.sessionExpiry =
      some 10 ∧
    (restoreSession ⟨none, some "u", some 10, false⟩ ⟨none, none⟩ 5 true).1.sessionUser =
      some "u" := by
  constructor
  · rfl
  · constructor <;> rfl

/-- C5 amended: once the expiry check passes and the biometric gate is
not holding, (a) if both slots are present and deserializing the key or
the user throws (malformed JWK / malformed profile), `restoreSession`
clears all three persisted slots and returns false with the in-memory
state untouched (so no key in memory on a cold start); (b) if the key or
user slot is merely absent it returns false leaving the store
unchanged (not cleared). -/
theorem restoreSession_failure_semantics (st : SessionStore) (mem : SessionMem) (now : Nat)
    (skip : Bool) (e : Nat) (hst : st.sessionExpiry = some e) (hle : ¬ e < now)
    (hgate : (isBiometricEnabled st && !skip) = false) :
    (∀ ks us, st.sessionKey = some ks → st.sessionUser = some us →
      (importKeyFromJWK ks = none ∨ parseUser us = none) →
      restoreSession st mem now skip = (clearSession st, mem, false)) ∧
    (st.sessionKey = none ∨ st.sessionUser = none →
      restoreSession st mem now skip = (st, mem, false)) := by
  constructor
  · intro ks us hks hus hfail
    rcases hfail with hf | hf
    · simp [restoreSession, hst, hle, hgate, hks, hus, hf]
    · simp only [restoreSession, hst, if_neg hle, hgate, Bool.false_eq_true, if_false, hks, hus]
      cases himp : importKeyFromJWK ks <;> simp [hf]
  · intro hmiss
    rcases hmiss with hf | hf
    · simp only [restoreSession, hst, if_neg hle, hgate, Bool.false_eq_true, if_false, hf]
    · simp only [restoreSession, hst, if_neg hle, hgate, Bool.false_eq_true, if_false, hf]
      cases st.sessionKey <;> rfl

theorem restoreSession_failure_semantics_witness :
    ((⟨some "!bad", some "u", some 10, false⟩ : SessionStore).sessionExpiry = some 10 ∧
      ¬ (10 : Nat) < 5 ∧ importKeyFromJWK "!bad" = none) ∧
    restoreSession ⟨some "!bad", some "u", some 10, false⟩ ⟨none, none⟩ 5 true =
      (clearSession ⟨some "!bad", some "u", some 10, false⟩, ⟨none, none⟩, false) :=
  ⟨⟨rfl, by decide, rfl⟩,
    (restoreSession_failure_semantics ⟨some "!bad", some "u", some 10, false⟩ ⟨none, none⟩
        5 true 10 rfl (by decide) rfl).1 "!bad" "u" rfl rfl (Or.inl rfl)⟩

/-- C6: the session record persisted on successful login stores expiry
`now + 7 days` when the biometric preference is enabled, and
`now + 20 minutes` otherwise. -/
theorem loginUser_expiry (st : SessionStore) (now : Nat) (key : List Nat)
    (user : UserProfile) :
    (loginUser st now key user).1.sessionExpiry =
      some (now + if st.biometricEnabled then 604800000 else 1200000) := by
  by_cases hb : st.biometricEnabled <;>
    simp [loginUser, persistSession, isBiometricEnabled, hb,
      BIOMETRIC_TIMEOUT_MS, SESSION_TIMEOUT_MS]

/-! ## Session operation traces (for the expiry-monotonicity claim) -/

/-- One session operation; `login` carries the externally derived key
and profile, `restore` the `skipBiometricCheck` flag. -/
inductive SessionOp where
  | login (key : List Nat) (user : UserProfile) : SessionOp
  | restore (skip : Bool) : SessionOp
  | enableBio : SessionOp
  | disableBio : SessionOp
  | logout : SessionOp

/-- Combined persisted + in-memory session state. -/
structure SessionState where
  store : SessionStore
  mem : SessionMem
deriving DecidableEq

/-- Fresh app state: empty storage, no key in memory. -/
def initSessionState : SessionState := ⟨⟨none, none, none, false⟩, ⟨none, none⟩⟩

/-- Effect of one operation at time `now`, assembled from the embedded
authService.ts functions. -/
def sessionStep (s : SessionState) (op : SessionOp) (now : Nat) : SessionState :=
  match op with
  | .login key user =>
      let p := loginUser s.store now key user
      ⟨p.1, p.2⟩
  | .restore skip =>
      let r := restoreSession s.store s.mem now skip
      ⟨r.1, r.2.1⟩
  | .enableBio => ⟨enableBiometrics s.store s.mem now, s.mem⟩
  | .disableBio => ⟨disableBiometrics s.store s.mem now, s.mem⟩
  | .logout =>
      let p := logoutUser s.store
      ⟨p.1, p.2⟩

/-- The steps the claim exempts: explicit logout and explicit disabling
of secondary verification. -/
def exceptedOp : SessionOp → Bool
  | .disableBio => true
  | .logout => true
  | _ => false

/-- The persisted expiry did not move backward across a step (removal of
the slot is not a backward move of a timestamp). -/
def noDecrease (a b : Option Nat) : Bool :=
  match a, b with
  | some e, some e2 => decide (e ≤ e2)
  | _, _ => true

/-- Call times along a trace are nondecreasing starting from `t0`
(real time does not run backward). -/
def chronoB : Nat → List (Nat × SessionOp) → Bool
  | _, [] => true
  | t0, (t, _) :: rest => decide (t0 ≤ t) && chronoB t rest

/-- Every non-exempted step along the trace leaves the persisted expiry
nondecreasing. -/
def expiryMonoB : SessionState → List (Nat × SessionOp) → Bool
  | _, [] => true
  | s, (t, op) :: rest =>
      (exceptedOp op ||
        noDecrease s.store.sessionExpiry (sessionStep s op t).store.sessionExpiry) &&
      expiryMonoB (sessionStep s op t) rest

/-- Reachability invariant at time `t`: whenever an expiry is persisted,
a key and user are live in memory, and the expiry is at most `t` plus
the timeout that the current biometric flag selects. -/
def SessionInv (s : SessionState) (t : Nat) : Prop :=
  ∀ e, s.store.sessionExpiry = some e →
    s.mem.currentSessionKey ≠ none ∧ s.mem.currentUser ≠ none ∧
    e ≤ t + (if s.store.biometricEnabled then BIOMETRIC_TIMEOUT_MS else SESSION_TIMEOUT_MS)

theorem sessionInv_init (t : Nat) : SessionInv initSessionState t := by
  intro e he
  simp [initSessionState] at he

theorem sessionInv_mono (s : SessionState) (t t' : Nat) (h : SessionInv s t) (hle : t ≤ t') :
    SessionInv s t' := by
  intro e he
  obtain ⟨h1, h2, h3⟩ := h e he
  exact ⟨h1, h2, by omega⟩

theorem sessionInv_step (s : SessionState) (op : SessionOp) (t : Nat)
    (h : SessionInv s t) : SessionInv (sessionStep s op t) t := by
  obtain ⟨⟨sk, su, se, bio⟩, mk, mu⟩ := s
  cases op with
  | login key user =>
      intro e he
      simp only [sessionStep, loginUser, persistSession, isBiometricEnabled] at he ⊢
      refine ⟨by simp, by simp, ?_⟩
      simp at he
      by_cases hb : bio <;> simp [hb] at he ⊢ <;> omega
  | logout =>
      intro e he
      simp [sessionStep, logoutUser, clearSession] at he
  | enableBio =>
      intro e he
      simp only [sessionStep, enableBiometrics] at he ⊢
      cases mk with
      | none =>
          obtain ⟨h1, _, _⟩ := h e (by simpa using he)
          exact absurd rfl h1
      | some k =>
          cases mu with
          | none =>
              obtain ⟨_, h2, _⟩ := h e (by simpa using he)
              exact absurd rfl h2
          | some u =>
              simp only [persistSession, isBiometricEnabled] at he ⊢
              simp at he
              refine ⟨by simp, by simp, ?_⟩
              simp [BIOMETRIC_TIMEOUT_MS] at he ⊢
              omega
  | disableBio =>
      intro e he
      simp only [sessionStep, disableBiometrics] at he ⊢
      cases mk with
      | none =>
          obtain ⟨h1, _, _⟩ := h e (by simpa using he)
          exact absurd rfl h1
      | some k =>
          cases mu with
          | none =>
              obtain ⟨_, h2, _⟩ := h e (by simpa using he)
              exact absurd rfl h2
          | some u =>
              simp only [persistSession, isBiometricEnabled] at he ⊢
              simp at he
              refine ⟨by simp, by simp, ?_⟩
              simp [SESSION_TIMEOUT_MS] at he ⊢
              omega
  | restore skip =>
      intro e he
      simp only [sessionStep, restoreSession, isBiometricEnabled] at he ⊢
      cases se with
      | none => simp at he
      | some exp =>
          simp only at he ⊢
          by_cases hlt : exp < t
          · simp only [if_pos hlt, clearSession] at he
            simp at he
          · simp only [if_neg hlt] at he ⊢
            by_cases hgate : (bio && !skip) = true
            · simp only [hgate, if_true] at he ⊢
              exact h e (by simpa using he)
            · simp only [Bool.not_eq_true] at hgate
              simp only [hgate, Bool.false_eq_true, if_false] at he ⊢
              cases sk with
              | none => exact h e (by simpa using he)
              | some ks =>
                  cases su with
                  | none => exact h e (by simpa using he)
                  | some us =>
                      cases himp : importKeyFromJWK ks with
                      | none =>
                          simp only [himp, clearSession] at he
                          simp at he
                      | some k =>
                          cases hpu : parseUser us with
                          | none =>
                              simp only [himp, hpu, clearSession] at he
                              simp at he
                          | some u =>
                              simp only [himp, hpu] at he ⊢
                              simp at he
                              refine ⟨by simp, by simp, ?_⟩
                              by_cases hb : bio <;> simp [hb] at he ⊢ <;> omega

theorem sessionStep_noDecrease (s : SessionState) (op : SessionOp) (t : Nat)
    (h : SessionInv s t) (hop : exceptedOp op = false) :
    noDecrease s.store.sessionExpiry (sessionStep s op t).store.sessionExpiry = true := by
  obtain ⟨⟨sk, su, se, bio⟩, mk, mu⟩ := s
  cases se with
  | none => cases (sessionStep ⟨⟨sk, su, none, bio⟩, mk, mu⟩ op t).store.sessionExpiry <;> rfl
  | some e =>
      obtain ⟨hk, hu, hbound⟩ := h e rfl
      cases op with
      | logout => simp [exceptedOp] at hop
      | disableBio => simp [exceptedOp] at hop
      | login key user =>
          simp only [sessionStep, loginUser, persistSession, isBiometricEnabled]
          simp only [noDecrease, decide_eq_true_eq]
          by_cases hb : bio <;> simp [hb] at hbound ⊢ <;> omega
      | enableBio =>
          simp only [sessionStep, enableBiometrics]
          cases mk with
          | none => exact absurd rfl hk
          | some k =>
              cases mu with
              | none => exact absurd rfl hu
              | some u =>
                  simp only [persistSession, isBiometricEnabled]
                  simp only [noDecrease, decide_eq_true_eq]
                  by_cases hb : bio <;>
                    simp [hb, BIOMETRIC_TIMEOUT_MS, SESSION_TIMEOUT_MS] at hbound ⊢ <;> omega
      | restore skip =>
          simp only [sessionStep, restoreSession, isBiometricEnabled]
          by_cases hlt : e < t
          · simp [hlt, clearSession, noDecrease]
          · simp only [if_neg hlt]
            by_cases hgate : (bio && !skip) = true
            · simp [hgate, noDecrease]
            · simp only [Bool.not_eq_true] at hgate
              simp only [hgate, Bool.false_eq_true, if_false]
              cases sk with
              | none => simp [noDecrease]
              | some ks =>
                  cases su with
                  | none => simp [noDecrease]
                  | some us =>
                      cases himp : importKeyFromJWK ks with
                      | none => simp [himp, clearSession, noDecrease]
                      | some k =>
                          cases hpu : parseUser us with
                          | none => simp [himp, hpu, clearSession, noDecrease]
                          | some u =>
                              simp only [himp, hpu]
                              simp only [noDecrease, decide_eq_true_eq]
                              by_cases hb : bio <;> simp [hb] at hbound ⊢ <;> omega

theorem expiryMono_of_inv : ∀ (tr : List (Nat × SessionOp)) (s : SessionState) (t : Nat),
    SessionInv s t → chronoB t tr = true → expiryMonoB s tr = true := by
  intro tr
  induction tr with
  | nil => intro s t _ _; rfl
  | cons p rest ih =>
      intro s t hinv hchrono
      obtain ⟨tn, op⟩ := p
      simp only [chronoB, Bool.and_eq_true, decide_eq_true_eq] at hchrono
      obtain ⟨hle, hrest⟩ := hchrono
      have hinv' : SessionInv s tn := sessionInv_mono s t tn hinv hle
      simp only [expiryMonoB, Bool.and_eq_true, Bool.or_eq_true]
      refine ⟨?_, ih (sessionStep s op tn) tn (sessionInv_step s op tn hinv') hrest⟩
      cases hop : exceptedOp op with
      | true => exact Or.inl rfl
      | false => exact Or.inr (sessionStep_noDecrease s op tn hinv' hop)

/-- C7: along every chronologically ordered sequence of session
operations (login, restoreSession, enableBiometrics, disableBiometrics,
logout) run from the fresh app state, the persisted expiry timestamp
never decreases, except across a step that is an explicit logout or an
explicit disabling of secondary verification. -/
theorem session_expiry_monotone (tr : List (Nat × SessionOp))
    (h : chronoB 0 tr = true) : expiryMonoB initSessionState tr = true :=
  expiryMono_of_inv tr initSessionState 0 (sessionInv_init 0) h

theorem session_expiry_monotone_witness :
    chronoB 0 [(5, SessionOp.login (List.replicate 32 7) ⟨"i", "u", "s"⟩),
      (9, SessionOp.restore true), (11, SessionOp.enableBio),
      (15, SessionOp.restore true), (20, SessionOp.logout)] = true ∧
    expiryMonoB initSessionState [(5, SessionOp.login (List.replicate 32 7) ⟨"i", "u", "s"⟩),
      (9, SessionOp.restore true), (11, SessionOp.enableBio),
      (15, SessionOp.restore true), (20, SessionOp.logout)] = true :=
  ⟨by decide,
    session_expiry_monotone [(5, SessionOp.login (List.replicate 32 7) ⟨"i", "u", "s"⟩),
      (9, SessionOp.restore true), (11, SessionOp.enableBio),
      (15, SessionOp.restore true), (20, SessionOp.logout)] (by decide)⟩

/-! ## Wallet data model (types.ts, constants.ts)

TypeScript `number` fields are modelled as integers, the string-literal
union types as strings, and optional (`?:`) fields as `Option`.  ISO
date strings compared through date-fns (`parseISO`/`isBefore`/
`startOfDay`) are modelled as days on a `Nat` timeline, which those
order-preserving conversions justify. -/

/-- `Benefit` (types.ts). -/
structure Benefit where
  category : String
  multiplier : Int
  notes : Option String
  expiryDate : Option Nat
deriving DecidableEq

/-- `CardDocument` (types.ts). -/
structure CardDocument where
  id : String
  name : String
  uploadDate : String
  summary : String
  docType : String
deriving DecidableEq

/-- `CreditCard` (types.ts). -/
structure CreditCard where
  id : String
  cardType : String
  issuer : String
  name : String
  lastFour : String
  statementDay : Option Int
  dueDay : Option Int
  creditLimit : Option Int
  paymentUrl : String
  benefits : List Benefit
  temporaryBenefits : Option (List Benefit)
  documents : Option (List CardDocument)
  notes : Option String
  currentBalance : Option Int
  fullCardNumber : Option String
  cvv : Option String
  expiryDate : Option String
  cardHolderName : Option String
deriving DecidableEq

/-- `NotificationSettings` (types.ts). -/
structure NotificationSettings where
  daysBeforeStatement : Int
  daysBeforeDue : Int
deriving DecidableEq

/-- `AISettings` (types.ts). -/
structure AISettings where
  provider : String
  modelId : String
  apiKey : Option String
  baseUrl : Option String
deriving DecidableEq

/-- `UserData` (types.ts): the single encrypted document. `settings` is
required by the type, `aiSettings` optional. -/
structure UserData where
  cards : List CreditCard
  settings : NotificationSettings
  aiSettings : Option AISettings
deriving DecidableEq

/-- `DEFAULT_NOTIFICATIONS` (constants.ts). -/
def DEFAULT_NOTIFICATIONS : NotificationSettings :=
  { daysBeforeStatement := 5, daysBeforeDue := 3 }

/-- `DEFAULT_AI_SETTINGS` (constants.ts). -/
def DEFAULT_AI_SETTINGS : AISettings :=
  { provider := "google", modelId := "gemini-3-flash-preview", apiKey := some "", baseUrl := none }

/-! ### Byte serialization of `UserData`

`encryptData(data: any, ...)` serializes whatever document it is given;
the app passes the `UserData` payload.  The serialization of that typed
document is modelled with the same toolkit as the generic one. -/

/-- Option combinator: absence marker or `1` plus the payload. -/
def encOpt (f : α → List Nat) : Option α → List Nat
  | none => [0]
  | some a => 1 :: f a

/-- Decoder for `encOpt`. -/
def decOpt (g : List Nat → Option (α × List Nat)) : List Nat → Option (Option α × List Nat)
  | [] => none
  | x :: r =>
      if x = 0 then some (none, r)
      else if x = 1 then (g r).map (fun p => (some p.1, p.2))
      else none

theorem decOpt_encOpt (f : α → List Nat) (g : List Nat → Option (α × List Nat))
    (hg : ∀ a r, g (f a ++ r) = some (a, r)) (o : Option α) (r : List Nat) :
    decOpt g (encOpt f o ++ r) = some (o, r) := by
  cases o with
  | none => simp [encOpt, decOpt]
  | some a => simp [encOpt, decOpt, hg]

theorem encOpt_lt (f : α → List Nat) (hf : ∀ a, ∀ x ∈ f a, x < 256) (o : Option α) :
    ∀ x ∈ encOpt f o, x < 256 := by
  cases o with
  | none => simp [encOpt]
  | some a =>
      intro x hx
      rcases List.mem_cons.1 hx with h | h
      · omega
      · exact hf a x h

/-- Length-unbounded list decoding, fuel derived from the input. -/
def decList (g : List Nat → Option (α × List Nat)) (r : List Nat) :
    Option (List α × List Nat) :=
  decListBy g (r.length + 1) r

theorem decList_encListBy (f : α → List Nat) (g : List Nat → Option (α × List Nat))
    (hg : ∀ a r, g (f a ++ r) = some (a, r)) (xs : List α) (r : List Nat) :
    decList g (encListBy f xs ++ r) = some (xs, r) := by
  unfold decList
  apply decListBy_encListBy f g hg
  have := encListBy_length_le f xs
  simp only [List.length_append]
  omega

def encBenefit (b : Benefit) : List Nat :=
  encStr b.category ++ (encInt b.multiplier ++ (encOpt encStr b.notes ++
    encOpt encNat b.expiryDate))

def decBenefit (r : List Nat) : Option (Benefit × List Nat) :=
  match decStr r with
  | none => none
  | some (category, r1) =>
      match decInt r1 with
      | none => none
      | some (multiplier, r2) =>
          match decOpt decStr r2 with
          | none => none
          | some (notes, r3) =>
              match decOpt decNat r3 with
              | none => none
              | some (expiry, r4) => some (⟨category, multiplier, notes, expiry⟩, r4)

theorem decBenefit_encBenefit (b : Benefit) (r : List Nat) :
    decBenefit (encBenefit b ++ r) = some (b, r) := by
  simp [encBenefit, decBenefit, List.append_assoc, decStr_encStr, decInt_encInt,
    decOpt_encOpt encStr decStr decStr_encStr,
    decOpt_encOpt encNat decNat decNat_encNat]

theorem encBenefit_lt (b : Benefit) : ∀ x ∈ encBenefit b, x < 256 := by
  intro x hx
  simp only [encBenefit, List.mem_append] at hx
  rcases hx with h | h | h | h
  · exact encStr_lt _ x h
  · exact encInt_lt _ x h
  · exact encOpt_lt encStr (fun a => encStr_lt a) _ x h
  · exact encOpt_lt encNat (fun a => encNat_lt a) _ x h

def encCardDocument (d : CardDocument) : List Nat :=
  encStr d.id ++ (encStr d.name ++ (encStr d.uploadDate ++ (encStr d.summary ++
    encStr d.docType)))

def decCardDocument (r : List Nat) : Option (CardDocument × List Nat) :=
  match decStr r with
  | none => none
  | some (id, r1) =>
      match decStr r1 with
      | none => none
      | some (name, r2) =>
          match decStr r2 with
          | none => none
          | some (uploadDate, r3) =>
              match decStr r3 with
              | none => none
              | some (summary, r4) =>
                  match decStr r4 with
                  | none => none
                  | some (docType, r5) =>
                      some (⟨id, name, uploadDate, summary, docType⟩, r5)

theorem decCardDocument_encCardDocument (d : CardDocument) (r : List Nat) :
    decCardDocument (encCardDocument d ++ r) = some (d, r) := by
  simp [encCardDocument, decCardDocument, List.append_assoc, decStr_encStr]

theorem encCardDocument_lt (d : CardDocument) : ∀ x ∈ encCardDocument d, x < 256 := by
  intro x hx
  simp only [encCardDocument, List.mem_append] at hx
  rcases hx with h | h | h | h | h <;> exact encStr_lt _ x h

def encCreditCard (c : CreditCard) : List Nat :=
  encStr c.id ++ (encStr c.cardType ++ (encStr c.issuer ++ (encStr c.name ++
    (encStr c.lastFour ++ (encOpt encInt c.statementDay ++ (encOpt encInt c.dueDay ++
    (encOpt encInt c.creditLimit ++ (encStr c.paymentUrl ++
    (encListBy encBenefit c.benefits ++ (encOpt (encListBy encBenefit) c.temporaryBenefits ++
    (encOpt (encListBy encCardDocument) c.documents ++ (encOpt encStr c.notes ++
    (encOpt encInt c.currentBalance ++ (encOpt encStr c.fullCardNumber ++
    (encOpt encStr c.cvv ++ (encOpt encStr c.expiryDate ++
    encOpt encStr c.cardHolderName))))))))))))))))

def decCreditCard (r : List Nat) : Option (CreditCard × List Nat) :=
  match decStr r with
  | none => none
  | some (id, r1) =>
  match decStr r1 with
  | none => none
  | some (cardType, r2) =>
  match decStr r2 with
  | none => none
  | some (issuer, r3) =>
  match decStr r3 with
  | none => none
  | some (name, r4) =>
  match decStr r4 with
  | none => none
  | some (lastFour, r5) =>
  match decOpt decInt r5 with
  | none => none
  | some (statementDay, r6) =>
  match decOpt decInt r6 with
  | none => none
  | some (dueDay, r7) =>
  match decOpt decInt r7 with
  | none => none
  | some (creditLimit, r8) =>
  match decStr r8 with
  | none => none
  | some (paymentUrl, r9) =>
  match decList decBenefit r9 with
  | none => none
  | some (benefits, r10) =>
  match decOpt (decList decBenefit) r10 with
  | none => none
  | some (temporaryBenefits, r11) =>
  match decOpt (decList decCardDocument) r11 with
  | none => none
  | some (documents, r12) =>
  match decOpt decStr r12 with
  | none => none
  | some (notes, r13) =>
  match decOpt decInt r13 with
  | none => none
  | some (currentBalance, r14) =>
  match decOpt decStr r14 with
  | none => none
  | some (fullCardNumber, r15) =>
  match decOpt decStr r15 with
  | none => none
  | some (cvv, r16) =>
  match decOpt decStr r16 with
  | none => none
  | some (expiryDate, r17) =>
  match decOpt decStr r17 with
  | none => none
  | some (cardHolderName, r18) =>
      some (⟨id, cardType, issuer, name, lastFour, statementDay, dueDay, creditLimit,
        paymentUrl, benefits, temporaryBenefits, documents, notes, currentBalance,
        fullCardNumber, cvv, expiryDate, cardHolderName⟩, r18)

theorem decCreditCard_encCreditCard (c : CreditCard) (r : List Nat) :
    decCreditCard (encCreditCard c ++ r) = some (c, r) := by
  simp [encCreditCard, decCreditCard, List.append_assoc, decStr_encStr,
    decOpt_encOpt encInt decInt decInt_encInt,
    decOpt_encOpt encStr decStr decStr_encStr,
    decList_encListBy encBenefit decBenefit decBenefit_encBenefit,
    decOpt_encOpt (encListBy encBenefit) (decList decBenefit)
      (decList_encListBy encBenefit decBenefit decBenefit_encBenefit),
    decOpt_encOpt (encListBy encCardDocument) (decList decCardDocument)
      (decList_encListBy encCardDocument decCardDocument decCardDocument_encCardDocument)]

theorem encCreditCard_lt (c : CreditCard) : ∀ x ∈ encCreditCard c, x < 256 := by
  intro x hx
  simp only [encCreditCard, List.mem_append] at hx
  rcases hx with h | h | h | h | h | h | h | h | h | h | h | h | h | h | h | h | h | h
  · exact encStr_lt _ x h
  · exact encStr_lt _ x h
  · exact encStr_lt _ x h
  · exact encStr_lt _ x h
  · exact encStr_lt _ x h
  · exact encOpt_lt encInt encInt_lt _ x h
  · exact encOpt_lt encInt encInt_lt _ x h
  · exact encOpt_lt encInt encInt_lt _ x h
  · exact encStr_lt _ x h
  · exact encListBy_lt encBenefit encBenefit_lt _ x h
  · exact encOpt_lt (encListBy encBenefit) (encListBy_lt encBenefit encBenefit_lt) _ x h
  · exact encOpt_lt (encListBy encCardDocument)
      (encListBy_lt encCardDocument encCardDocument_lt) _ x h
  · exact encOpt_lt encStr encStr_lt _ x h
  · exact encOpt_lt encInt encInt_lt _ x h
  · exact encOpt_lt encStr encStr_lt _ x h
  · exact encOpt_lt encStr encStr_lt _ x h
  · exact encOpt_lt encStr encStr_lt _ x h
  · exact encOpt_lt encStr encStr_lt _ x h

def encNotificationSettings (ns : NotificationSettings) : List Nat :=
  encInt ns.daysBeforeStatement ++ encInt ns.daysBeforeDue

def decNotificationSettings (r : List Nat) : Option (NotificationSettings × List Nat) :=
  match decInt r with
  | none => none
  | some (daysBeforeStatement, r1) =>
      match decInt r1 with
      | none => none
      | some (daysBeforeDue, r2) => some (⟨daysBeforeStatement, daysBeforeDue⟩, r2)

theorem decNotificationSettings_enc (ns : NotificationSettings) (r : List Nat) :
    decNotificationSettings (encNotificationSettings ns ++ r) = some (ns, r) := by
  simp [encNotificationSettings, decNotificationSettings, List.append_assoc, decInt_encInt]

theorem encNotificationSettings_lt (ns : NotificationSettings) :
    ∀ x ∈ encNotificationSettings ns, x < 256 := by
  intro x hx
  simp only [encNotificationSettings, List.mem_append] at hx
  rcases hx with h | h <;> exact encInt_lt _ x h

def encAISettings (a : AISettings) : List Nat :=
  encStr a.provider ++ (encStr a.modelId ++ (encOpt encStr a.apiKey ++
    encOpt encStr a.baseUrl))

def decAISettings (r : List Nat) : Option (AISettings × List Nat) :=
  match decStr r with
  | none => none
  | some (provider, r1) =>
      match decStr r1 with
      | none => none
      | some (modelId, r2) =>
          match decOpt decStr r2 with
          | none => none
          | some (apiKey, r3) =>
              match decOpt decStr r3 with
              | none => none
              | some (baseUrl, r4) => some (⟨provider, modelId, apiKey, baseUrl⟩, r4)

theorem decAISettings_encAISettings (a : AISettings) (r : List Nat) :
    decAISettings (encAISettings a ++ r) = some (a, r) := by
  simp [encAISettings, decAISettings, List.append_assoc, decStr_encStr,
    decOpt_encOpt encStr decStr decStr_encStr]

theorem encAISettings_lt (a : AISettings) : ∀ x ∈ encAISettings a, x < 256 := by
  intro x hx
  simp only [encAISettings, List.mem_append] at hx
  rcases hx with h | h | h | h
  · exact encStr_lt _ x h
  · exact encStr_lt _ x h
  · exact encOpt_lt encStr encStr_lt _ x h
  · exact encOpt_lt encStr encStr_lt _ x h

/-- Serialized bytes of the `UserData` document (cards, settings,
optional AI settings) — `JSON.stringify` + `TextEncoder` at the type the
app actually encrypts. -/
def encUserData (u : UserData) : List Nat :=
  encListBy encCreditCard u.cards ++ (encNotificationSettings u.settings ++
    encOpt encAISettings u.aiSettings)

/-- Decoder for `encUserData`. -/
def decUserData (r : List Nat) : Option (UserData × List Nat) :=
  match decList decCreditCard r with
  | none => none
  | some (cards, r1) =>
      match decNotificationSettings r1 with
      | none => none
      | some (settings, r2) =>
          match decOpt decAISettings r2 with
          | none => none
          | some (aiSettings, r3) => some (⟨cards, settings, aiSettings⟩, r3)

theorem decUserData_encUserData (u : UserData) (r : List Nat) :
    decUserData (encUserData u ++ r) = some (u, r) := by
  simp [encUserData, decUserData, List.append_assoc,
    decList_encListBy encCreditCard decCreditCard decCreditCard_encCreditCard,
    decNotificationSettings_enc,
    decOpt_encOpt encAISettings decAISettings decAISettings_encAISettings]

theorem encUserData_lt (u : UserData) : ∀ x ∈ encUserData u, x < 256 := by
  intro x hx
  simp only [encUserData, List.mem_append] at hx
  rcases hx with h | h | h
  · exact encListBy_lt encCreditCard encCreditCard_lt _ x h
  · exact encNotificationSettings_lt _ x h
  · exact encOpt_lt encAISettings encAISettings_lt _ x h

/-- Whole-input decoding of a `UserData` document (`JSON.parse` view). -/
def decodeUserDoc (pt : List Nat) : Option UserData :=
  match decUserData pt with
  | some (u, []) => some u
  | _ => none

theorem decodeUserDoc_encUserData (u : UserData) : decodeUserDoc (encUserData u) = some u := by
  have h := decUserData_encUserData u []
  simp only [List.append_nil] at h
  simp [decodeUserDoc, h]

/-- `encryptData` (cryptoUtils.ts) applied to the `UserData` payload the
storage service passes it. -/
def encryptUserData (data : UserData) (key : List Nat) (iv : List Nat) : EncryptedPayload :=
  { iv := bufferToBase64 iv,
    ciphertext := bufferToBase64 (gcmEncrypt key iv (encUserData data)) }

/-- `decryptData` (cryptoUtils.ts) as consumed by the storage service,
which reads the result as a `UserData`. -/
def decryptUserData (ivBase64 : String) (ciphertextBase64 : String) (key : List Nat) :
    Except CryptoError UserData :=
  match base64ToBuffer ivBase64 with
  | none => .error .decodeError
  | some iv =>
      match base64ToBuffer ciphertextBase64 with
      | none => .error .decodeError
      | some ciphertext =>
          match gcmDecrypt key iv ciphertext with
          | none => .error (.decryptionError "Decryption failed. Invalid password or corrupted data.")
          | some ptBytes =>
              match decodeUserDoc ptBytes with
              | none => .error (.decryptionError "Decryption failed. Invalid password or corrupted data.")
              | some u => .ok u

theorem decryptUserData_encryptUserData (u : UserData) (key iv : List Nat)
    (hkl : key.length = 32) (hkb : ∀ x ∈ key, x < 256)
    (hil : iv.length = 12) (hib : ∀ x ∈ iv, x < 256) :
    decryptUserData (encryptUserData u key iv).iv (encryptUserData u key iv).ciphertext key =
      Except.ok u := by
  have hct : ∀ x ∈ gcmEncrypt key iv (encUserData u), x < 256 :=
    gcmEncrypt_lt key iv (encUserData u) hkb hib (encUserData_lt u)
  simp only [encryptUserData, decryptUserData, base64ToBuffer_bufferToBase64 iv hib,
    base64ToBuffer_bufferToBase64 _ hct, gcmDecrypt_gcmEncrypt key iv _ hkl hil,
    decodeUserDoc_encUserData u]

/-! ## Sync coordinator (storageService.ts) -/

/-- Outcome of the Supabase `.single()` row fetch inside
`getUserDataRaw`: a row, a returned database error / empty result (the
`if (data && !error)` guard fails without throwing), or a thrown network
error (the `catch` branch).  The remote store is external; its response
is an input of the model. -/
inductive RemoteFetch where
  | ok (p : EncryptedPayload) : RemoteFetch
  | dbError : RemoteFetch
  | netError : RemoteFetch
deriving DecidableEq

/-- `getUserDataRaw` (storageService.ts): when `navigator.onLine`
(modelled by `online`) fetch the remote row first and on success refresh
the local cache (`creditzen_user_data_<userId>`, its JSON text layer
modelled away) and return it; otherwise, or on any remote failure, fall
back to the local cache.  Returns (result, local cache afterwards). -/
def getUserDataRaw (online : Bool) (remote : RemoteFetch)
    (localCache : Option EncryptedPayload) :
    Option EncryptedPayload × Option EncryptedPayload :=
  if online then
    match remote with
    | .ok p => (some p, some p)
    | _ => (localCache, localCache)
  else (localCache, localCache)

/-- C8: online with a successful remote fetch, `getUserDataRaw` returns
the remote payload and overwrites the local cache with it; offline or on
a failed remote fetch it returns the local cache (unchanged); the result
is `none` exactly when there is no remote success and no cache entry. -/
theorem getUserDataRaw_spec (online : Bool) (remote : RemoteFetch)
    (localCache : Option EncryptedPayload) :
    (∀ p, remote = RemoteFetch.ok p → online = true →
      getUserDataRaw online remote localCache = (some p, some p)) ∧
    ((online = false ∨ ∀ p, remote ≠ RemoteFetch.ok p) →
      getUserDataRaw online remote localCache = (localCache, localCache)) ∧
    ((getUserDataRaw online remote localCache).1 = none ↔
      ((online = false ∨ ∀ p, remote ≠ RemoteFetch.ok p) ∧ localCache = none)) := by
  cases online with
  | false =>
      refine ⟨by intro p _ h; exact absurd h (by simp), fun _ => rfl, ?_⟩
      simp [getUserDataRaw]
  | true =>
      cases remote with
      | ok p =>
          refine ⟨by intro q hq _; rw [hq]; rfl, ?_, ?_⟩
          · intro h
            rcases h with h | h
            · exact absurd h (by simp)
            · exact absurd rfl (h p)
          · constructor
            · intro h; simp [getUserDataRaw] at h
            · intro ⟨h, _⟩
              rcases h with h | h
              · exact absurd h (by simp)
              · exact absurd rfl (h p)
      | dbError =>
          refine ⟨by intro p h _; exact absurd h (by simp), fun _ => rfl, ?_⟩
          simp [getUserDataRaw]
      | netError =>
          refine ⟨by intro p h _; exact absurd h (by simp), fun _ => rfl, ?_⟩
          simp [getUserDataRaw]

theorem getUserDataRaw_spec_witness :
    getUserDataRaw true (RemoteFetch.ok ⟨"a", "b"⟩) none = (some ⟨"a", "b"⟩, some ⟨"a", "b"⟩) ∧
    getUserDataRaw false (RemoteFetch.ok ⟨"a", "b"⟩) (some ⟨"c", "d"⟩) =
      (some ⟨"c", "d"⟩, some ⟨"c", "d"⟩) ∧
    getUserDataRaw true RemoteFetch.netError none = (none, none) :=
  ⟨(getUserDataRaw_spec true (RemoteFetch.ok ⟨"a", "b"⟩) none).1 ⟨"a", "b"⟩ rfl rfl,
    (getUserDataRaw_spec false (RemoteFetch.ok ⟨"a", "b"⟩) (some ⟨"c", "d"⟩)).2.1 (Or.inl rfl),
    (getUserDataRaw_spec true RemoteFetch.netError none).2.1
      (Or.inr (fun p h => RemoteFetch.noConfusion h))⟩

/-! ## Guest-mode wallet flow and backup import (storageService.ts) -/

/-- `cleanCards` (storageService.ts): drop expired temporary benefits;
cards without temporary benefits (or with an empty list) pass through
untouched.  `today` is `startOfDay(new Date())` on the day timeline. -/
def cleanCards (today : Nat) (cards : List CreditCard) : List CreditCard :=
  cards.map (fun card =>
    match card.temporaryBenefits with
    | none => card
    | some tbs =>
        if tbs.length = 0 then card
        else
          { card with
            temporaryBenefits :=
              some (tbs.filter (fun b =>
                match b.expiryDate with
                | none => true
                | some d => !decide (d < today))) })

/-- `getGuestData` (storageService.ts): the guest blob
(`creditzen_guest_data`; JSON text layer modelled away) or the default
document. -/
def getGuestData (g : Option UserData) : UserData :=
  g.getD { cards := [], settings := DEFAULT_NOTIFICATIONS, aiSettings := some DEFAULT_AI_SETTINGS }

/-- `getCards` (storageService.ts) in guest mode (`getCurrentUser()`
returns null): guest cards after cleanup. -/
def getCardsGuest (g : Option UserData) (today : Nat) : List CreditCard :=
  cleanCards today (getGuestData g).cards

/-- `getSettings` (storageService.ts) in guest mode: notification and AI
settings, with the defaults substituted for missing fields. -/
def getSettingsGuest (g : Option UserData) : NotificationSettings × AISettings :=
  let d := getGuestData g
  (d.settings, d.aiSettings.getD DEFAULT_AI_SETTINGS)

/-- A backup file after `JSON.parse` and the `!data.cards` validity
check of `importWalletJSON` (`version` and `exportDate` are never
consulted); missing `settings`/`aiSettings` are `none`. -/
structure BackupData where
  cards : List CreditCard
  settings : Option NotificationSettings
  aiSettings : Option AISettings
deriving DecidableEq

/-- `importWalletJSON` (storageService.ts) in guest mode: in append mode
merge by id (skipping imported ids already present) and keep the current
settings; in replace mode take the backup wholesale; save and return the
resulting guest document. -/
def importWalletJSON (g : Option UserData) (today : Nat) (backup : BackupData)
    (append : Bool) : UserData :=
  let importedCards := backup.cards
  let importedSettings := backup.settings.getD DEFAULT_NOTIFICATIONS
  let importedAI := backup.aiSettings.getD DEFAULT_AI_SETTINGS
  let currentCards := getCardsGuest g today
  let cur := getSettingsGuest g
  if append then
    let currentIds := currentCards.map (fun c => c.id)
    let newCards := importedCards.filter (fun c => !currentIds.contains c.id)
    { cards := currentCards ++ newCards, settings := cur.1, aiSettings := some cur.2 }
  else
    { cards := importedCards, settings := importedSettings, aiSettings := some importedAI }

/-- A concrete temporary benefit already expired on day 5. -/
def expiredBenefit : Benefit :=
  { category := "Dining", multiplier := 2, notes := none, expiryDate := some 0 }

/-- A concrete stored card carrying the expired temporary benefit. -/
def existingCard : CreditCard :=
  { id := "1", cardType := "Credit", issuer := "Chase", name := "Sapphire",
    lastFour := "1111", statementDay := none, dueDay := none, creditLimit := none,
    paymentUrl := "", benefits := [], temporaryBenefits := some [expiredBenefit],
    documents := none, notes := none, currentBalance := none, fullCardNumber := none,
    cvv := none, expiryDate := none, cardHolderName := none }

/-- An imported card with the same id but different contents. -/
def importedDupCard : CreditCard :=
  { existingCard with issuer := "Other", temporaryBenefits := none }

/-- An imported card with a fresh id. -/
def importedNewCard : CreditCard :=
  { existingCard with id := "2", issuer := "Amex", temporaryBenefits := none }

/-- The stored guest wallet holding `existingCard`. -/
def existingWallet : UserData :=
  { cards := [existingCard], settings := { daysBeforeStatement := 5, daysBeforeDue := 3 },
    aiSettings := some DEFAULT_AI_SETTINGS }

/-- A backup carrying the duplicate-id card and different settings. -/
def importedBackup : BackupData :=
  { cards := [importedDupCard],
    settings := some { daysBeforeStatement := 9, daysBeforeDue := 9 },
    aiSettings := none }

/-- C9 counterexample: append-importing a backup whose card shares the
existing card's id does skip the imported duplicate, but the existing
card is not preserved unchanged: the routine cleanup run by `getCards`
strips its expired temporary benefit before the merge is saved. -/
theorem importWalletJSON_append_counterexample :
    importedDupCard.id = existingCard.id ∧
    (importWalletJSON (some existingWallet) 5 importedBackup true).cards ≠ [existingCard] ∧
    (importWalletJSON (some existingWallet) 5 importedBackup true).cards =
      [{ existingCard with temporaryBenefits := some [] }] := by
  refine ⟨rfl, ?_, by decide⟩
  decide

/-- C9 amended: in append mode, against a wallet whose existing cards
are untouched by the routine expired-temporary-benefit cleanup, every
existing card is kept verbatim and in place (imported cards whose id is
already present are skipped), imported cards with new ids are appended
after the existing ones, and the wallet's own notification and AI
settings are kept (missing AI settings defaulting), not the backup's. -/
theorem importWalletJSON_append (g : Option UserData) (today : Nat) (backup : BackupData)
    (hclean : cleanCards today (getGuestData g).cards = (getGuestData g).cards) :
    (importWalletJSON g today backup true).cards =
      (getGuestData g).cards ++
        backup.cards.filter
          (fun c => !(((getGuestData g).cards.map (fun x => x.id)).contains c.id)) ∧
    (importWalletJSON g today backup true).settings = (getGuestData g).settings ∧
    (importWalletJSON g today backup true).aiSettings =
      some ((getGuestData g).aiSettings.getD DEFAULT_AI_SETTINGS) := by
  simp [importWalletJSON, getCardsGuest, getSettingsGuest, hclean]

/-- A stored wallet whose card survives cleanup unchanged. -/
def cleanWallet : UserData :=
  { cards := [{ existingCard with temporaryBenefits := none }],
    settings := { daysBeforeStatement := 5, daysBeforeDue := 3 },
    aiSettings := some DEFAULT_AI_SETTINGS }

/-- A backup with one duplicate-id card and one new card. -/
def importedBackupTwo : BackupData :=
  { cards := [importedDupCard, importedNewCard],
    settings := some { daysBeforeStatement := 9, daysBeforeDue := 9 },
    aiSettings := none }

theorem importWalletJSON_append_witness :
    cleanCards 5 (getGuestData (some cleanWallet)).cards = (getGuestData (some cleanWallet)).cards ∧
    ((importWalletJSON (some cleanWallet) 5 importedBackupTwo true).cards =
      (getGuestData (some cleanWallet)).cards ++
        importedBackupTwo.cards.filter
          (fun c => !(((getGuestData (some cleanWallet)).cards.map (fun x => x.id)).contains c.id)) ∧
    (importWalletJSON (some cleanWallet) 5 importedBackupTwo true).settings =
      (getGuestData (some cleanWallet)).settings ∧
    (importWalletJSON (some cleanWallet) 5 importedBackupTwo true).aiSettings =
      some ((getGuestData (some cleanWallet)).aiSettings.getD DEFAULT_AI_SETTINGS)) :=
  ⟨by decide, importWalletJSON_append (some cleanWallet) 5 importedBackupTwo (by decide)⟩

/-! ## saveCards frame behaviour (storageService.ts) -/

/-- The payload `saveCards` (storageService.ts) encrypts on its
authenticated path with a live session key: the new cards plus the
settings recovered from the existing blob — the built-in defaults when
there is no blob, when its `aiSettings` field is absent, or when
decryption throws (the `catch (e) { /* ignore */ }` swallows the
error). -/
def saveCardsPayload (existing : Option EncryptedPayload) (key : List Nat)
    (cards : List CreditCard) : UserData :=
  match existing with
  | none =>
      { cards := cards, settings := DEFAULT_NOTIFICATIONS,
        aiSettings := some DEFAULT_AI_SETTINGS }
  | some blob =>
      match decryptUserData blob.iv blob.ciphertext key with
      | .ok d =>
          { cards := cards, settings := d.settings,
            aiSettings := some (d.aiSettings.getD DEFAULT_AI_SETTINGS) }
      | .error _ =>
          { cards := cards, settings := DEFAULT_NOTIFICATIONS,
            aiSettings := some DEFAULT_AI_SETTINGS }

/-- `saveCards` (storageService.ts), authenticated path: encrypt the
preserved-settings payload with a fresh IV and hand it to
`saveUserData`. -/
def saveCards (cards : List CreditCard) (key iv : List Nat)
    (existing : Option EncryptedPayload) : EncryptedPayload :=
  encryptUserData (saveCardsPayload existing key cards) key iv

/-- An existing blob (typed) without the optional `aiSettings` field. -/
def oldBlobData : UserData :=
  { cards := [], settings := { daysBeforeStatement := 1, daysBeforeDue := 2 },
    aiSettings := none }

/-- A fixed 32-byte AES-256 key. -/
def key7 : List Nat := List.replicate 32 7

/-- A fixed 12-byte IV. -/
def iv9 : List Nat := List.replicate 12 9

/-- The encrypted existing blob for the counterexample. -/
def oldBlob : EncryptedPayload := encryptUserData oldBlobData key7 iv9

/-- C10 counterexample: the existing blob decrypts successfully with the
session key, yet the newly saved payload's `aiSettings` are the built-in
defaults, not those of the old blob (which has none) — "settings and
aiSettings equal those of the old blob" fails as stated. -/
theorem saveCards_aiSettings_counterexample :
    decryptUserData oldBlob.iv oldBlob.ciphertext key7 = Except.ok oldBlobData ∧
    (saveCardsPayload (some oldBlob) key7 []).aiSettings = some DEFAULT_AI_SETTINGS ∧
    oldBlobData.aiSettings ≠ some DEFAULT_AI_SETTINGS ∧
    decryptUserData (saveCards [] key7 iv9 (some oldBlob)).iv
      (saveCards [] key7 iv9 (some oldBlob)).ciphertext key7 =
      Except.ok
        ({ cards := [],
           settings := { daysBeforeStatement := 1, daysBeforeDue := 2 },
           aiSettings := some DEFAULT_AI_SETTINGS } : UserData) := by
  have hdec : decryptUserData oldBlob.iv oldBlob.ciphertext key7 = Except.ok oldBlobData :=
    decryptUserData_encryptUserData oldBlobData key7 iv9 (by decide) (by decide)
      (by decide) (by decide)
  have hpay : saveCardsPayload (some oldBlob) key7 [] =
      { cards := [], settings := { daysBeforeStatement := 1, daysBeforeDue := 2 },
        aiSettings := some DEFAULT_AI_SETTINGS } := by
    simp [saveCardsPayload, hdec, oldBlobData, DEFAULT_NOTIFICATIONS]
  refine ⟨hdec, by simp [hpay], by decide, ?_⟩
  rw [saveCards, hpay]
  exact decryptUserData_encryptUserData _ key7 iv9 (by decide) (by decide)
    (by decide) (by decide)

/-- C10 amended: with a session key and an existing blob, `saveCards`
always produces a payload carrying exactly the new cards; when the blob
decrypts successfully the old settings are kept and the old `aiSettings`
are kept when present (replaced by the built-in default when the field
is absent); when decryption fails it does not abort — it saves the
built-in default settings silently. -/
theorem saveCards_frame (existing : EncryptedPayload) (key : List Nat)
    (cards : List CreditCard) :
    (saveCardsPayload (some existing) key cards).cards = cards ∧
    (∀ d, decryptUserData existing.iv existing.ciphertext key = Except.ok d →
      (saveCardsPayload (some existing) key cards).settings = d.settings ∧
      (saveCardsPayload (some existing) key cards).aiSettings =
        some (d.aiSettings.getD DEFAULT_AI_SETTINGS)) ∧
    (∀ err, decryptUserData existing.iv existing.ciphertext key = Except.error err →
      saveCardsPayload (some existing) key cards =
        { cards := cards, settings := DEFAULT_NOTIFICATIONS,
          aiSettings := some DEFAULT_AI_SETTINGS }) := by
  refine ⟨?_, ?_, ?_⟩
  · cases h : decryptUserData existing.iv existing.ciphertext key <;>
      simp [saveCardsPayload, h]
  · intro d hd
    simp [saveCardsPayload, hd]
  · intro err herr
    simp [saveCardsPayload, herr]

/-- An existing blob (typed) with explicit AI settings. -/
def goodBlobData : UserData :=
  { cards := [], settings := { daysBeforeStatement := 1, daysBeforeDue := 2 },
    aiSettings := some { provider := "openai", modelId := "m", apiKey := none, baseUrl := none } }

/-- Its encryption under the fixed key and IV. -/
def goodBlob : EncryptedPayload := encryptUserData goodBlobData key7 iv9

theorem saveCards_frame_witness :
    decryptUserData goodBlob.iv goodBlob.ciphertext key7 = Except.ok goodBlobData ∧
    ((saveCardsPayload (some goodBlob) key7 []).settings = goodBlobData.settings ∧
      (saveCardsPayload (some goodBlob) key7 []).aiSettings =
        some (goodBlobData.aiSettings.getD DEFAULT_AI_SETTINGS)) :=
  ⟨decryptUserData_encryptUserData goodBlobData key7 iv9 (by decide) (by decide)
      (by decide) (by decide),
    (saveCards_frame goodBlob key7 []).2.1 goodBlobData
      (decryptUserData_encryptUserData goodBlobData key7 iv9 (by decide) (by decide)
        (by decide) (by decide))⟩

end CreditZen
